/-
Verification of the feedforward neural-network engine (Network class:
getOutput, getCost, getGradient, getMeanGradient, gradientDescend).

Shallow embedding over the rationals: JavaScript numbers are modeled as ℚ,
so every algebraic identity of the source is stated exactly.  JavaScript
operations that can throw (the explicit length checks, and Array.reduce
called without an initial value on an empty array) are modeled as Option.
Array.reduce without an initial value is modeled by jsReduce1, which seeds
the fold with the first element and starts the callback index at 1, exactly
as JavaScript does.  Out-of-range array reads use a default value via getD;
every concrete run examined below stays in bounds, so the defaults never
fire there.
-/
import Mathlib

namespace NNet

/-- An activation function together with its derivative
(interface Activation of src/types.d.ts). -/
structure Activation where
  activation : ℚ → ℚ
  dActivation : ℚ → ℚ

/-- The linear activation of the source: identity, derivative constantly 1. -/
def linear : Activation := ⟨fun x => x, fun _ => 1⟩

/-- The reLU activation of the source: max(0, x), derivative 1 for x ≥ 0 else 0. -/
def reLU : Activation := ⟨fun x => max 0 x, fun x => if 0 ≤ x then 1 else 0⟩

/-- The state of a Network object: weights, biases, activations fields. -/
structure Network where
  weights : List (List (List ℚ))
  biases : List (List ℚ)
  activations : List Activation

/-- interface Gradient of src/types.d.ts. -/
structure Gradient where
  nabla_w : List (List (List ℚ))
  nabla_b : List (List ℚ)
deriving DecidableEq

/-- Array.prototype.map with the element index, as used throughout the source. -/
def idxMap (f : ℕ → α → β) : ℕ → List α → List β
  | _, [] => []
  | n, a :: as => f n a :: idxMap f (n + 1) as

/-- Seeded Array.prototype.reduce with accumulator, element and index. -/
def jsFold (f : α → β → ℕ → α) : α → ℕ → List β → α
  | acc, _, [] => acc
  | acc, n, b :: bs => jsFold f (f acc b n) (n + 1) bs

/-- Array.prototype.reduce without an initial value: the first element seeds
the fold (and is not passed to the callback), the callback index starts at 1;
on an empty array JavaScript throws, modeled as none. -/
def jsReduce1 (f : α → α → ℕ → α) : List α → Option α
  | [] => none
  | x :: xs => some (jsFold f x 1 xs)

/-- The weighted sum row.reduce((sum, w, i) => sum + w * prev[i], 0)
used in getOutput (line 73) and outputToZ (line 43). -/
def wsum (row prev : List ℚ) : ℚ :=
  jsFold (fun s w i => s + w * prev.getD i 0) 0 0 row

/-- outputToZ of the source (lines 41-45): recompute the weighted input of
neuron j in layer k from the stored activations; 0 when k = 0. -/
def outputToZ (a : List (List ℚ)) (weights : List (List (List ℚ)))
    (biases : List (List ℚ)) (k j : ℕ) : ℚ :=
  if k = 0 then 0
  else wsum ((weights.getD k []).getD j []) (a.getD (k - 1) [])
    + (biases.getD k []).getD j 0

/-- One layer of the forward loop (getOutput lines 72-75):
a[k] = biases[k].map((b, j) => activation(weights[k][j] · prev + b)). -/
def layerOut (net : Network) (prev : List ℚ) (k : ℕ) : List ℚ :=
  idxMap (fun j b =>
      (net.activations.getD k linear).activation
        (wsum ((net.weights.getD k []).getD j []) prev + b))
    0 (net.biases.getD k [])

/-- The forward loop for the given number of remaining layers, starting at
layer index k with the previous layer activations prev. -/
def forwardAux (net : Network) : List ℚ → ℕ → ℕ → List (List ℚ)
  | _, _, 0 => []
  | prev, k, c + 1 =>
    layerOut net prev k :: forwardAux net (layerOut net prev k) (k + 1) c

/-- The unchecked body of getOutput: a[0] = input, then one layerOut per
remaining layer (lines 69-77). -/
def forward (net : Network) (input : List ℚ) : List (List ℚ) :=
  input :: forwardAux net input 1 (net.biases.length - 1)

/-- getOutput (lines 67-78).  The length check of line 68 compares
input.length with biases[0].length (which the constructor always sets to the
empty list); accessing biases[0] of a zero-layer network throws, hence the
outer match. -/
def getOutput (net : Network) (input : List ℚ) : Option (List (List ℚ)) :=
  match net.biases with
  | [] => none
  | b0 :: _ =>
    if input.length = b0.length then some (forward net input) else none

/-- getCost (lines 80-86).  Note the final reduce of line 85 has no initial
value: the first output-layer activation seeds the fold unmodified. -/
def getCost (net : Network) (input target : List ℚ) : Option ℚ :=
  match net.biases with
  | [] => none
  | b0 :: _ =>
    if input.length = b0.length then
      if target.length = (net.biases.getD (net.biases.length - 1) []).length then
        jsReduce1 (fun sum out i => sum + (out - target.getD i 0) ^ 2)
          ((forward net input).getD (net.biases.length - 1) [])
      else none
    else none

/-- nabla_b[k] = dCda[k].map((dC, j) => dC * dActivation(outputToZ ...))
(line 98). -/
def stepNb (net : Network) (a : List (List ℚ)) (k : ℕ) (dC : List ℚ) : List ℚ :=
  idxMap (fun j dCj =>
      dCj * (net.activations.getD k linear).dActivation
        (outputToZ a net.weights net.biases k j))
    0 dC

/-- nabla_w[k] = weights[k].map((row, i) => row.map((_, j) => nabla_b[k][i] * a[k-1][j]))
(lines 99-101). -/
def stepNw (net : Network) (a : List (List ℚ)) (k : ℕ) (nb : List ℚ) :
    List (List ℚ) :=
  idxMap (fun i row =>
      idxMap (fun j _ => nb.getD i 0 * (a.getD (k - 1) []).getD j 0) 0 row)
    0 (net.weights.getD k [])

/-- The error propagation of line 102, exactly as written:
dCda[k-1] = nabla_w[k].reduce((sum, nw) => sum.map((s, i) => s + nw[i] * nabla_b[k][i]))
— a reduce without initial value over the rows of nabla_w[k], whose callback
reads nabla_b[k] at the index of the previous layer. -/
def propagate (nb : List ℚ) (nw : List (List ℚ)) : Option (List ℚ) :=
  jsReduce1 (fun sum row _ =>
      idxMap (fun i s => s + row.getD i 0 * nb.getD i 0) 0 sum) nw

/-- The backward loop of getGradient (lines 97-103), from layer k down to
layer 0, carrying the current dCda[k] vector; returns the nabla_b and
nabla_w lists for layers 0..k in order.  Fails when the reduce of line 102
runs on an empty nabla_w[k]. -/
def backward (net : Network) (a : List (List ℚ)) :
    ℕ → List ℚ → Option (List (List ℚ) × List (List (List ℚ)))
  | 0, dC =>
    some ([stepNb net a 0 dC], [stepNw net a 0 (stepNb net a 0 dC)])
  | k + 1, dC =>
    match propagate (stepNb net a (k + 1) dC)
        (stepNw net a (k + 1) (stepNb net a (k + 1) dC)) with
    | none => none
    | some dC' =>
      match backward net a k dC' with
      | none => none
      | some (nbs, nws) =>
        some (nbs ++ [stepNb net a (k + 1) dC],
              nws ++ [stepNw net a (k + 1) (stepNb net a (k + 1) dC)])

/-- getGradient (lines 88-108): the two length checks, the forward pass,
the output-layer error dCda[L-1][i] = 2 * (a[L-1][i] - target[i]) (line 96),
then the backward loop. -/
def getGradient (net : Network) (input target : List ℚ) : Option Gradient :=
  match net.biases with
  | [] => none
  | b0 :: _ =>
    if input.length = b0.length then
      if target.length = (net.biases.getD (net.biases.length - 1) []).length then
        match backward net (forward net input) (net.biases.length - 1)
            (idxMap (fun i out => 2 * (out - target.getD i 0)) 0
              ((forward net input).getD (net.biases.length - 1) [])) with
        | none => none
        | some (nbs, nws) => some ⟨nws, nbs⟩
      else none
    else none

/-- input.map((i, n) => this.getGradient(i, target[n])) of line 113; a
failing getGradient aborts the whole call. -/
def gradsAux (net : Network) : List (List ℚ) → List (List ℚ) → Option (List Gradient)
  | [], _ => some []
  | _ :: _, [] => none
  | x :: xs, y :: ys =>
    match getGradient net x y with
    | none => none
    | some g =>
      match gradsAux net xs ys with
      | none => none
      | some gs => some (g :: gs)

/-- The entrywise gradient sum callback of lines 114-117. -/
def sumGrad (sum g : Gradient) (_n : ℕ) : Gradient :=
  ⟨idxMap (fun k s =>
      idxMap (fun i s1 =>
          idxMap (fun j s2 => s2 + ((g.nabla_w.getD k []).getD i []).getD j 0) 0 s1)
        0 s)
    0 sum.nabla_w,
   idxMap (fun k s =>
      idxMap (fun i s1 => s1 + (g.nabla_b.getD k []).getD i 0) 0 s)
    0 sum.nabla_b⟩

/-- getMeanGradient (lines 110-122): parallel-length check, per-example
gradients, a reduce without initial value to sum them (lines 114-117), then
entrywise division by the batch size (lines 118-121). -/
def getMeanGradient (net : Network) (inputs targets : List (List ℚ)) :
    Option Gradient :=
  if inputs.length = targets.length then
    match gradsAux net inputs targets with
    | none => none
    | some gs =>
      match jsReduce1 sumGrad gs with
      | none => none
      | some tg =>
        some ⟨tg.nabla_w.map (fun k => k.map (fun i =>
                i.map (fun j => j / (inputs.length : ℚ)))),
              tg.nabla_b.map (fun k => k.map (fun i => i / (inputs.length : ℚ)))⟩
  else none

/-- The parameter update of lines 132-133: entrywise subtraction of the
gradient from weights and biases (implicit learning rate 1). -/
def applyGradient (net : Network) (g : Gradient) : Network :=
  ⟨idxMap (fun k w0 =>
      idxMap (fun i w1 =>
          idxMap (fun j w => w - ((g.nabla_w.getD k []).getD i []).getD j 0) 0 w1)
        0 w0)
    0 net.weights,
   idxMap (fun k b0 =>
      idxMap (fun i b => b - (g.nabla_b.getD k []).getD i 0) 0 b0)
    0 net.biases,
   net.activations⟩

/-- The batch loop of gradientDescend (lines 127-134).  A failing
getMeanGradient aborts the loop, returning the parameters as updated so far
together with the failure flag. -/
def descendGo (net : Network) :
    List (List (List ℚ)) → List (List (List ℚ)) → Network × Bool
  | [], _ => (net, true)
  | _ :: _, [] => (net, false)
  | i :: is, t :: ts =>
    match getMeanGradient net i t with
    | none => (net, false)
    | some g => descendGo (applyGradient net g) is ts

/-- gradientDescend (lines 124-135): outer parallel-length check, then the
batch loop.  The Bool records whether the call ran to completion without
throwing; the Network is the parameter state when the call returns or throws. -/
def gradientDescend (net : Network) (inputs targets : List (List (List ℚ))) :
    Network × Bool :=
  if inputs.length = targets.length then descendGo net inputs targets
  else (net, false)

/-- The constructor (lines 52-65).  Every call of random() is modeled by an
arbitrary supplied family of rationals indexed by the position being filled
(layer, row, column), since every claim about the constructor concerns only
the shapes of the allocated arrays. -/
def mkNetwork (layers : List (ℕ × Activation)) (rw : ℕ → ℕ → ℕ → ℚ)
    (rb : ℕ → ℕ → ℚ) : Network :=
  ⟨idxMap (fun k p =>
      if k = 0 then []
      else (List.range p.1).map (fun i =>
        (List.range (layers.getD (k - 1) (0, linear)).1).map (fun j => rw k i j)))
    0 layers,
   idxMap (fun k p =>
      if k = 0 then [] else (List.range p.1).map (fun i => rb k i))
    0 layers,
   layers.map Prod.snd⟩

/-- The shape invariants the constructor establishes (spec section 3):
weights, biases, activations have one entry per layer, layer 0 has no
parameters, and every weight row of layer k has the length of layer k - 1.
Stated over List.range so that it is decidable on concrete networks. -/
def WF (net : Network) : Prop :=
  net.weights.length = net.biases.length ∧
  net.activations.length = net.biases.length ∧
  net.weights.headD [] = [] ∧
  net.biases.headD [] = [] ∧
  ∀ k ∈ List.range net.biases.length,
    (net.weights.getD k []).length = (net.biases.getD k []).length ∧
    ∀ row ∈ net.weights.getD k [], row.length = (net.biases.getD (k - 1) []).length

instance (net : Network) : Decidable (WF net) := by
  unfold WF; infer_instance

/-- Modelled from the spec: the cost the spec asserts, the sum over the
output layer of the squared differences (spec section 4.3). -/
def sumSqError (output target : List ℚ) : ℚ :=
  ((output.zip target).map (fun p => (p.1 - p.2) ^ 2)).sum

/-- Modelled from the spec: the error the spec asserts getGradient propagates
to the previous layer, dCda[k-1][j] = Σ i, delta[k][i] * weights[k][i][j]
(spec section 4.4, step 3 of the README algorithm). -/
def claimedPrevError (weights : List (List (List ℚ))) (delta : List ℚ)
    (k prevLen : ℕ) : List ℚ :=
  (List.range prevLen).map (fun j =>
    ((List.range delta.length).map (fun i =>
      delta.getD i 0 * ((weights.getD k []).getD i []).getD j 0)).sum)

/-- The concrete scenario network of the spec (section 8): layers
[(2, linear), (1, linear)], weights[1] = [[1, 1]], biases[1] = [0]. -/
def netA : Network := ⟨[[], [[1, 1]]], [[], [0]], [linear, linear]⟩

/-- A network with layers [(0, linear), (2, linear)] and biases[1] = [3, 0];
its input-length check accepts the empty input, so it isolates the behavior
of the unseeded cost reduce. -/
def netB : Network := ⟨[[], [[], []]], [[], [3, 0]], [linear, linear]⟩

/-- A network with layers [(0, linear), (1, linear), (1, linear)],
weights[2] = [[3]], biases = [[], [2], [0]]; a three-layer network on which
getGradient succeeds, so the propagation step from layer 2 to layer 1 is
observable in nabla_b[1]. -/
def netC : Network :=
  ⟨[[], [[]], [[3]]], [[], [2], [0]], [linear, linear, linear]⟩

/-- A network with layers [(0, linear), (1, linear)] and biases[1] = [1];
the smallest network on which every operation succeeds. -/
def netD : Network := ⟨[[], [[]]], [[], [1]], [linear, linear]⟩

lemma length_idxMap (f : ℕ → α → β) : ∀ (n : ℕ) (l : List α),
    (idxMap f n l).length = l.length
  | _, [] => rfl
  | n, _ :: as => by simp [idxMap, length_idxMap f (n + 1) as]

lemma getD_idxMap (f : ℕ → α → β) (d : β) (d' : α) :
    ∀ (l : List α) (n i : ℕ), i < l.length →
      (idxMap f n l).getD i d = f (n + i) (l.getD i d')
  | [], _, _, h => absurd h (by simp)
  | a :: as, n, 0, _ => by simp [idxMap]
  | a :: as, n, i + 1, h => by
    have := getD_idxMap f d d' as (n + 1) i (by simpa using h)
    simp only [idxMap, List.getD_cons_succ, this]
    ring_nf

/-- Claim C1: the spec says getOutput (and getCost, getGradient) fails with a
dimension mismatch exactly when the input length differs from size(0), and
succeeds on every input of length size(0).  The code instead compares the
input length against biases[0].length, which the constructor always sets to
the empty list, so on the scenario network netA (size(0) = 2) every input of
the valid length 2 fails, while the empty input is the only accepted one
(shown on netD). -/
theorem c1_input_check_bug :
    getOutput netA [1, 2] = none ∧ getOutput netA [1, 2, 3] = none ∧
    getOutput netD [] = some [[], [1]] := by
  norm_num [getOutput, forward, forwardAux, layerOut, wsum, jsFold, idxMap,
    netA, netD, linear]

/-- Claim C2: the spec says getCost equals the sum of squared errors over the
output layer.  On netB the accepted call getCost [] with targets [0, 0]
produces the output layer [3, 0], whose sum of squared errors is 9, but the
code returns 3: the reduce of line 85 has no initial value, so the first
output-layer activation seeds the sum unsquared and with no target
subtracted. -/
theorem c2_cost_unseeded_reduce :
    getOutput netB [] = some [[], [3, 0]] ∧
    getCost netB [] [0, 0] = some 3 ∧
    sumSqError [3, 0] [0, 0] = 9 ∧ (3 : ℚ) ≠ 9 := by
  norm_num [getOutput, getCost, forward, forwardAux, layerOut, wsum, jsFold,
    jsReduce1, idxMap, sumSqError, netB, linear]

/-- Claim C3: the spec scenario network [(2, linear), (1, linear)] with
weights[1] = [[1, 1]], biases[1] = [0] is netA; the spec says
getOutput [1, 2] has final layer [3], getCost [1, 2] [5] = 4 and
getGradient [1, 2] [5] = ([-4], [[-4, -8]]).  All three calls throw instead:
the length check of lines 68, 81 and 89 compares the input length 2 with
biases[0].length = 0. -/
theorem c3_scenario_all_throw :
    getOutput netA [1, 2] = none ∧ getCost netA [1, 2] [5] = none ∧
    getGradient netA [1, 2] [5] = none := by decide

/-- Claim C4: the spec says the backward pass propagates
dCda[k-1][j] = sum over i of delta[k][i] * weights[k][i][j].  On netC the
run getGradient [] [5] succeeds with delta[2] = nabla_b[2] = [2], and since
every activation is linear, nabla_b[1] equals the propagated dCda[1].  The
documented formula gives delta[2][0] * weights[2][0][0] = 2 * 3 = 6, but the
code propagates through the rows of nabla_w[2] (line 102), yielding
nabla_b[2][0] * a[1][0] = 2 * 2 = 4. -/
theorem c4_propagation_bug :
    getGradient netC [] [5] = some ⟨[[], [[]], [[4]]], [[], [4], [2]]⟩ ∧
    claimedPrevError netC.weights [2] 2 1 = [6] ∧ ([4] : List ℚ) ≠ [6] := by
  norm_num [getGradient, backward, stepNb, stepNw, propagate, outputToZ,
    forward, forwardAux, layerOut, wsum, jsFold, jsReduce1, idxMap,
    claimedPrevError, netC, linear, List.range_succ]

/-- Claim C6, counterexample: gradientDescend on netD with two batches, the
first valid and the second failing, throws after the first batch has already
been applied: the biases end as [[], [-1]] although they were [[], [1]]
before the call, so a failing run does not leave the parameters at their
pre-call values. -/
theorem c6_counterexample :
    (gradientDescend netD [[[]], [[0]]] [[[0]], [[0]]]).2 = false ∧
    (gradientDescend netD [[[]], [[0]]] [[[0]], [[0]]]).1.biases = [[], [-1]] ∧
    netD.biases = [[], [1]] ∧ ([[], [-1]] : List (List ℚ)) ≠ [[], [1]] := by
  norm_num [gradientDescend, descendGo, getMeanGradient, gradsAux, sumGrad,
    applyGradient, getGradient, backward, stepNb, stepNw, propagate,
    outputToZ, forward, forwardAux, layerOut, wsum, jsFold, jsReduce1,
    idxMap, netD, linear]

/-- Claim C6, amended: when the outer parallel-length check of
gradientDescend fails, the parameters are returned unmodified — that failure
does occur before any mutation; only a failure on a later batch leaves the
updates of the earlier batches applied. -/
theorem c6_amended_outer_check (net : Network)
    (ins ts : List (List (List ℚ))) (h : ins.length ≠ ts.length) :
    gradientDescend net ins ts = (net, false) := by
  unfold gradientDescend
  rw [if_neg h]

/-- Witness for the amended claim C6 at a concrete mismatched pair of batch
lists. -/
theorem c6_amended_witness :
    ([[[]]] : List (List (List ℚ))).length ≠
      ([] : List (List (List ℚ))).length ∧
    gradientDescend netD [[[]]] [] = (netD, false) :=
  ⟨by decide, c6_amended_outer_check netD [[[]]] [] (by decide)⟩

/-- Claim C10: getMeanGradient on the empty batch passes the parallel-length
check but fails, because the sum of the per-example gradients is a reduce
without initial value over an empty list (line 114). -/
theorem c10_empty_batch_fails (net : Network) :
    getMeanGradient net [] [] = none := rfl

lemma jsFold_length (f : List ℚ → List ℚ → ℕ → List ℚ)
    (hf : ∀ a b n, (f a b n).length = a.length) :
    ∀ (bs : List (List ℚ)) (acc : List ℚ) (n : ℕ),
      (jsFold f acc n bs).length = acc.length
  | [], _, _ => rfl
  | b :: bs, acc, n => by
    rw [jsFold, jsFold_length f hf bs _ (n + 1), hf]

lemma propagate_some (nb : List ℚ) (nw : List (List ℚ)) (dC : List ℚ)
    (h : propagate nb nw = some dC) :
    ∃ r rs, nw = r :: rs ∧ dC.length = r.length := by
  cases nw with
  | nil => simp [propagate, jsReduce1] at h
  | cons r rs =>
    refine ⟨r, rs, rfl, ?_⟩
    simp only [propagate, jsReduce1, Option.some.injEq] at h
    rw [← h]
    exact jsFold_length _ (fun a b n => length_idxMap _ 0 a) rs r 1

lemma stepNb_length (net : Network) (a : List (List ℚ)) (k : ℕ) (dC : List ℚ) :
    (stepNb net a k dC).length = dC.length :=
  length_idxMap _ 0 dC

lemma map_length_idxMap_inner (g : ℕ → ℕ → α → β) :
    ∀ (n : ℕ) (l : List (List α)),
      (idxMap (fun i row => idxMap (g i) 0 row) n l).map List.length =
        l.map List.length
  | _, [] => rfl
  | n, r :: rs => by
    simp [idxMap, length_idxMap, map_length_idxMap_inner g (n + 1) rs]

lemma stepNw_shape (net : Network) (a : List (List ℚ)) (k : ℕ) (nb : List ℚ) :
    (stepNw net a k nb).map List.length =
      (net.weights.getD k []).map List.length :=
  map_length_idxMap_inner
    (fun i j _ => nb.getD i 0 * (a.getD (k - 1) []).getD j 0) 0
    (net.weights.getD k [])

lemma take_succ_getD (d : α) : ∀ (l : List α) (n : ℕ), n < l.length →
    l.take (n + 1) = l.take n ++ [l.getD n d]
  | [], n, h => absurd h (by simp)
  | a :: as, 0, _ => by simp
  | a :: as, n + 1, h => by
    simp only [List.take_succ_cons, List.getD_cons_succ,
      take_succ_getD d as n (by simpa using h), List.cons_append]

lemma forwardAux_getD_length (net : Network) :
    ∀ (c : ℕ) (prev : List ℚ) (k m : ℕ), m < c →
      ((forwardAux net prev k c).getD m []).length =
        (net.biases.getD (k + m) []).length
  | 0, _, _, m, h => absurd h (Nat.not_lt_zero m)
  | c + 1, prev, k, 0, _ => by
    simp [forwardAux, layerOut, length_idxMap]
  | c + 1, prev, k, m + 1, h => by
    have ih := forwardAux_getD_length net c (layerOut net prev k) (k + 1) m
      (by omega)
    have harith : k + 1 + m = k + (m + 1) := by omega
    simpa [forwardAux, harith] using ih

lemma forward_getD_length (net : Network) (input : List ℚ) (k : ℕ)
    (h1 : 1 ≤ k) (hk : k < net.biases.length) :
    ((forward net input).getD k []).length = (net.biases.getD k []).length := by
  obtain ⟨m, rfl⟩ : ∃ m, k = m + 1 := ⟨k - 1, by omega⟩
  have ih := forwardAux_getD_length net (net.biases.length - 1) input 1 m
    (by omega)
  have harith : 1 + m = m + 1 := by omega
  simpa [forward, harith] using ih

lemma backward_shapes (net : Network) (a : List (List ℚ))
    (hlen : net.weights.length = net.biases.length)
    (hw : ∀ k' ∈ List.range net.biases.length,
      (net.weights.getD k' []).length = (net.biases.getD k' []).length ∧
      ∀ row ∈ net.weights.getD k' [],
        row.length = (net.biases.getD (k' - 1) []).length) :
    ∀ (k : ℕ) (dC : List ℚ) (nbs : List (List ℚ))
      (nws : List (List (List ℚ))),
      k < net.biases.length →
      dC.length = (net.biases.getD k []).length →
      backward net a k dC = some (nbs, nws) →
      nbs.map List.length = (net.biases.take (k + 1)).map List.length ∧
      nws.map (List.map List.length) =
        (net.weights.take (k + 1)).map (List.map List.length) := by
  intro k
  induction k with
  | zero =>
    intro dC nbs nws hk hdC h
    simp only [backward, Option.some.injEq, Prod.mk.injEq] at h
    obtain ⟨h1, h2⟩ := h
    constructor
    · rw [← h1, take_succ_getD [] net.biases 0 hk]
      simp [stepNb_length, hdC]
    · rw [← h2, take_succ_getD [] net.weights 0 (by omega)]
      simp [stepNw_shape]
  | succ k ih =>
    intro dC nbs nws hk hdC h
    rw [backward] at h
    cases hp : propagate (stepNb net a (k + 1) dC)
        (stepNw net a (k + 1) (stepNb net a (k + 1) dC)) with
    | none =>
      simp only [hp] at h
      exact Option.noConfusion h
    | some dC' =>
      simp only [hp] at h
      cases hb : backward net a k dC' with
      | none =>
        simp only [hb] at h
        exact Option.noConfusion h
      | some pr =>
        obtain ⟨nbs', nws'⟩ := pr
        simp only [hb, Option.some.injEq, Prod.mk.injEq] at h
        obtain ⟨h1, h2⟩ := h
        obtain ⟨r, rs, hnw, hdC'⟩ := propagate_some _ _ _ hp
        have hrlen : dC'.length = (net.biases.getD k []).length := by
          cases hww : net.weights.getD (k + 1) [] with
          | nil =>
            rw [stepNw, hww] at hnw
            simp [idxMap] at hnw
          | cons w0 ws =>
            rw [stepNw, hww] at hnw
            simp only [idxMap, List.cons.injEq] at hnw
            have hr : r.length = w0.length := by
              rw [← hnw.1, length_idxMap]
            have hmem : w0 ∈ net.weights.getD (k + 1) [] := by
              rw [hww]; exact List.mem_cons_self w0 ws
            have hrow := (hw (k + 1) (List.mem_range.mpr hk)).2 w0 hmem
            rw [hdC', hr, hrow]
            congr 1
        have ihres := ih dC' nbs' nws' (by omega) hrlen hb
        constructor
        · rw [← h1, List.map_append, ihres.1,
            take_succ_getD [] net.biases (k + 1) hk]
          simp [stepNb_length, hdC]
        · rw [← h2, List.map_append, ihres.2,
            take_succ_getD [] net.weights (k + 1) (by omega)]
          simp [stepNw_shape]

/-- Claim C5, counterexample: on the spec scenario network netA the only
accepted input is the empty list (see C1), and getGradient netA [] [5]
returns a Gradient whose nabla_b[0] has length 2 — the backward loop runs
down to layer 0 and stores the propagated layer-0 error there — while
biases[0] is empty, so the returned nabla_b does not match the shape of
biases. -/
theorem c5_counterexample :
    (getGradient netA [] [5]).map (fun g => g.nabla_b.map List.length) =
      some [2, 1] ∧
    netA.biases.map List.length = [0, 1] ∧ ([2, 1] : List ℕ) ≠ [0, 1] := by
  norm_num [getGradient, backward, stepNb, stepNw, propagate, outputToZ,
    forward, forwardAux, layerOut, wsum, jsFold, jsReduce1, idxMap,
    netA, linear]

/-- Claim C5, amended: whenever getGradient returns a Gradient on a network
satisfying WF — the constructor invariants together with every weight row of
layer k having the length of biases[k - 1], which for layer 1 means an empty
input layer — the returned nabla_w has exactly the shape of weights, the
returned nabla_b has exactly the shape of biases, and nabla_w[0] and
nabla_b[0] are empty.  Networks built with a non-empty input layer are
excluded: there every accepted call returns a nabla_b[0] of the input-layer
size instead (see the counterexample). -/
theorem c5_amended_shapes (net : Network) (x t : List ℚ) (g : Gradient)
    (hwf : WF net) (h : getGradient net x t = some g) :
    g.nabla_b.map List.length = net.biases.map List.length ∧
    g.nabla_w.map (List.map List.length) =
      net.weights.map (List.map List.length) ∧
    g.nabla_b.headD [] = [] ∧ g.nabla_w.headD [] = [] := by
  obtain ⟨hlen, hact, hwhead, hbhead, hw⟩ := hwf
  rw [getGradient] at h
  split at h
  next hnil => exact Option.noConfusion h
  next b0 bs hnb =>
    split at h
    next hx =>
      split at h
      next ht =>
        cases hback : backward net (forward net x) (net.biases.length - 1)
            (idxMap (fun i out => 2 * (out - t.getD i 0)) 0
              ((forward net x).getD (net.biases.length - 1) [])) with
        | none => rw [hback] at h; exact Option.noConfusion h
        | some pr =>
          obtain ⟨nbs, nws⟩ := pr
          rw [hback] at h
          simp only [Option.some.injEq] at h
          obtain rfl := h.symm
          have hL1 : 1 ≤ net.biases.length := by
            rw [hnb]; exact Nat.succ_le_succ (Nat.zero_le _)
          have hdClen :
              (idxMap (fun i out => 2 * (out - t.getD i 0)) 0
                ((forward net x).getD (net.biases.length - 1) [])).length =
              (net.biases.getD (net.biases.length - 1) []).length := by
            rw [length_idxMap]
            cases bs with
            | nil =>
              have hLeq : net.biases.length = 1 := by rw [hnb]; rfl
              have h10 : net.biases.length - 1 = 0 := by omega
              rw [h10, forward]
              simp only [List.getD_cons_zero]
              rw [hnb]
              simpa using hx
            | cons c cs =>
              have hLge : 2 ≤ net.biases.length := by
                rw [hnb]
                exact Nat.succ_le_succ (Nat.succ_le_succ (Nat.zero_le _))
              exact forward_getD_length net x _ (by omega) (by omega)
          have hshapes := backward_shapes net (forward net x) hlen hw
            (net.biases.length - 1) _ nbs nws (by omega) hdClen hback
          have htake : net.biases.length - 1 + 1 = net.biases.length := by
            omega
          have hWtake : net.weights.take net.biases.length = net.weights := by
            rw [← hlen]; exact List.take_length _
          rw [htake, List.take_length, hWtake] at hshapes
          obtain ⟨hbshape, hwshape⟩ := hshapes
          have hb0 : b0 = [] := by
            have hh := hbhead; rw [hnb] at hh; simpa using hh
          obtain ⟨w0, ws, hwe⟩ : ∃ w0 ws, net.weights = w0 :: ws := by
            cases hwe2 : net.weights with
            | nil => rw [hwe2] at hlen; rw [hnb] at hlen; simp at hlen
            | cons w0 ws => exact ⟨w0, ws, rfl⟩
          have hw0 : w0 = [] := by
            have hh := hwhead; rw [hwe] at hh; simpa using hh
          refine ⟨hbshape, hwshape, ?_, ?_⟩
          · cases nbs with
            | nil => rw [hnb] at hbshape; simp at hbshape
            | cons nb0 nbr =>
              rw [hnb] at hbshape
              simp only [List.map_cons, List.cons.injEq] at hbshape
              have h0 : nb0.length = 0 := by rw [hbshape.1, hb0]; rfl
              simpa using List.length_eq_zero.mp h0
          · cases nws with
            | nil => rw [hwe] at hwshape; simp at hwshape
            | cons nw0 nwr =>
              rw [hwe] at hwshape
              simp only [List.map_cons, List.cons.injEq] at hwshape
              have h0 : nw0.map List.length = [] := by
                rw [hwshape.1, hw0]; rfl
              simpa using List.map_eq_nil_iff.mp h0
      next ht => exact Option.noConfusion h
    next hx => exact Option.noConfusion h

/-- Witness for the amended claim C5 at the concrete network netD, where
getGradient succeeds and the returned shapes match. -/
theorem c5_amended_witness :
    WF netD ∧
    getGradient netD [] [0] = some ⟨[[], [[]]], [[], [2]]⟩ ∧
    ((⟨[[], [[]]], [[], [2]]⟩ : Gradient).nabla_b.map List.length =
        netD.biases.map List.length ∧
      (⟨[[], [[]]], [[], [2]]⟩ : Gradient).nabla_w.map (List.map List.length) =
        netD.weights.map (List.map List.length) ∧
      (⟨[[], [[]]], [[], [2]]⟩ : Gradient).nabla_b.headD [] = [] ∧
      (⟨[[], [[]]], [[], [2]]⟩ : Gradient).nabla_w.headD [] = []) :=
  have hwf : WF netD := by decide
  have hg : getGradient netD [] [0] = some ⟨[[], [[]]], [[], [2]]⟩ := by
    norm_num [getGradient, backward, stepNb, stepNw, propagate, outputToZ,
      forward, forwardAux, layerOut, wsum, jsFold, jsReduce1, idxMap,
      netD, linear]
  ⟨hwf, hg, c5_amended_shapes netD [] [0] _ hwf hg⟩

/-- Claim C7: getMeanGradient over a batch of one example equals getGradient
for that example exactly: the length check passes, the reduce without
initial value over the singleton gradient list returns that gradient
untouched, and the division by the batch size 1 is the identity. -/
theorem c7_mean_of_one (net : Network) (x t : List ℚ) (g : Gradient)
    (h : getGradient net x t = some g) :
    getMeanGradient net [x] [t] = some g := by
  simp only [getMeanGradient, List.length_cons, List.length_nil, if_true]
  simp only [gradsAux, h]
  simp only [jsReduce1, jsFold]
  simp [div_one]

/-- Witness for claim C7 at the concrete network netD. -/
theorem c7_mean_of_one_witness :
    getGradient netD [] [0] = some ⟨[[], [[]]], [[], [2]]⟩ ∧
    getMeanGradient netD [[]] [[0]] = some ⟨[[], [[]]], [[], [2]]⟩ :=
  have hg : getGradient netD [] [0] = some ⟨[[], [[]]], [[], [2]]⟩ := by
    norm_num [getGradient, backward, stepNb, stepNw, propagate, outputToZ,
      forward, forwardAux, layerOut, wsum, jsFold, jsReduce1, idxMap,
      netD, linear]
  ⟨hg, c7_mean_of_one netD [] [0] _ hg⟩

/-- Claim C8: gradientDescend processes the batches strictly in the order
given — on a non-empty batch list it computes the first mean gradient
against the current parameters, applies it, and continues on the updated
network — and applying a gradient subtracts it entrywise and unscaled from
every weight and bias. -/
theorem c8_descend_batches :
    (∀ net : Network, gradientDescend net [] [] = (net, true)) ∧
    (∀ (net : Network) (i t : List (List ℚ)) (is ts : List (List (List ℚ)))
        (g : Gradient), getMeanGradient net i t = some g →
        is.length = ts.length →
        gradientDescend net (i :: is) (t :: ts) =
          gradientDescend (applyGradient net g) is ts) ∧
    (∀ (net : Network) (g : Gradient) (k i j : ℕ),
        k < net.weights.length → i < (net.weights.getD k []).length →
        j < ((net.weights.getD k []).getD i []).length →
        (((applyGradient net g).weights.getD k []).getD i []).getD j 0 =
          ((net.weights.getD k []).getD i []).getD j 0 -
            ((g.nabla_w.getD k []).getD i []).getD j 0) ∧
    (∀ (net : Network) (g : Gradient) (k i : ℕ),
        k < net.biases.length → i < (net.biases.getD k []).length →
        ((applyGradient net g).biases.getD k []).getD i 0 =
          (net.biases.getD k []).getD i 0 - (g.nabla_b.getD k []).getD i 0) := by
  refine ⟨fun net => rfl, ?_, ?_, ?_⟩
  · intro net i t is ts g hg hlen
    simp only [gradientDescend, List.length_cons, hlen, if_true, descendGo, hg]
  · intro net g k i j hk hi hj
    have h1 : (applyGradient net g).weights =
        idxMap (fun k w0 =>
          idxMap (fun i w1 =>
              idxMap (fun j w => w - ((g.nabla_w.getD k []).getD i []).getD j 0)
                0 w1)
            0 w0)
          0 net.weights := rfl
    rw [h1, getD_idxMap _ [] [] net.weights 0 k hk]
    rw [getD_idxMap _ [] [] (net.weights.getD k []) 0 i hi]
    rw [getD_idxMap _ 0 0 ((net.weights.getD k []).getD i []) 0 j hj]
    simp
  · intro net g k i hk hi
    have h1 : (applyGradient net g).biases =
        idxMap (fun k b0 =>
          idxMap (fun i b => b - (g.nabla_b.getD k []).getD i 0) 0 b0)
          0 net.biases := rfl
    rw [h1, getD_idxMap _ [] [] net.biases 0 k hk]
    rw [getD_idxMap _ 0 0 (net.biases.getD k []) 0 i hi]
    simp

/-- Witness for claim C8: the batch recursion applied at netD with the one
usable batch, the weight-update entry at netA, and the bias-update entry at
netD. -/
theorem c8_descend_batches_witness :
    gradientDescend netD [] [] = (netD, true) ∧
    (getMeanGradient netD [[]] [[0]] = some ⟨[[], [[]]], [[], [2]]⟩ ∧
      gradientDescend netD [[[]]] [[[0]]] =
        gradientDescend (applyGradient netD ⟨[[], [[]]], [[], [2]]⟩) [] []) ∧
    (1 < netA.weights.length ∧ 0 < (netA.weights.getD 1 []).length ∧
      1 < ((netA.weights.getD 1 []).getD 0 []).length ∧
      (((applyGradient netA ⟨[[], [[]]], [[], [2]]⟩).weights.getD 1 []).getD
          0 []).getD 1 0 =
        ((netA.weights.getD 1 []).getD 0 []).getD 1 0 -
          (((⟨[[], [[]]], [[], [2]]⟩ : Gradient).nabla_w.getD 1 []).getD
            0 []).getD 1 0) ∧
    (1 < netD.biases.length ∧ 0 < (netD.biases.getD 1 []).length ∧
      ((applyGradient netD ⟨[[], [[]]], [[], [2]]⟩).biases.getD 1 []).getD 0 0 =
        (netD.biases.getD 1 []).getD 0 0 -
          ((⟨[[], [[]]], [[], [2]]⟩ : Gradient).nabla_b.getD 1 []).getD 0 0) :=
  have hg : getMeanGradient netD [[]] [[0]] = some ⟨[[], [[]]], [[], [2]]⟩ := by
    norm_num [getMeanGradient, gradsAux, sumGrad, getGradient, backward,
      stepNb, stepNw, propagate, outputToZ, forward, forwardAux, layerOut,
      wsum, jsFold, jsReduce1, idxMap, netD, linear]
  ⟨c8_descend_batches.1 netD,
   ⟨hg, c8_descend_batches.2.1 netD [[]] [[0]] [] [] _ hg rfl⟩,
   ⟨by decide, by decide, by decide,
    c8_descend_batches.2.2.1 netA ⟨[[], [[]]], [[], [2]]⟩ 1 0 1
      (by decide) (by decide) (by decide)⟩,
   ⟨by decide, by decide,
    c8_descend_batches.2.2.2 netD ⟨[[], [[]]], [[], [2]]⟩ 1 0
      (by decide) (by decide)⟩⟩

/-- Claim C9: for every topology with at least one layer, the constructed
network has one weight matrix, one bias vector and one activation per layer
and empty weights and biases at layer 0; and for every layer index k with
1 ≤ k below the layer count, layer k has size(k) weight rows of length
size(k - 1) each and size(k) biases.  The global invariants hold for every
topology with at least one layer, single-layer topologies included; only
the per-layer shapes are conditional on such a k existing. -/
theorem c9_constructor_shapes (layers : List (ℕ × Activation))
    (rw rb) (hl : 0 < layers.length) :
    (mkNetwork layers rw rb).weights.length = layers.length ∧
    (mkNetwork layers rw rb).biases.length = layers.length ∧
    (mkNetwork layers rw rb).activations.length = layers.length ∧
    (mkNetwork layers rw rb).weights.headD [] = [] ∧
    (mkNetwork layers rw rb).biases.headD [] = [] ∧
    ∀ k, 1 ≤ k → k < layers.length →
      ((mkNetwork layers rw rb).weights.getD k []).length =
        (layers.getD k (0, linear)).1 ∧
      (∀ row ∈ (mkNetwork layers rw rb).weights.getD k [],
        row.length = (layers.getD (k - 1) (0, linear)).1) ∧
      ((mkNetwork layers rw rb).biases.getD k []).length =
        (layers.getD k (0, linear)).1 := by
  obtain ⟨p, rest, rfl⟩ : ∃ p rest, layers = p :: rest := by
    cases layers with
    | nil => simp at hl
    | cons p rest => exact ⟨p, rest, rfl⟩
  refine ⟨by simp [mkNetwork, length_idxMap],
    by simp [mkNetwork, length_idxMap], by simp [mkNetwork],
    ?_, ?_, ?_⟩
  · simp [mkNetwork, idxMap]
  · simp [mkNetwork, idxMap]
  · intro k h1 hk
    refine ⟨?_, ?_, ?_⟩
    · rw [show (mkNetwork (p :: rest) rw rb).weights =
          idxMap (fun k q =>
            if k = 0 then []
            else (List.range q.1).map (fun i =>
              (List.range ((p :: rest).getD (k - 1) (0, linear)).1).map
                (fun j => rw k i j))) 0 (p :: rest) from rfl,
        getD_idxMap _ [] (0, linear) _ 0 k hk]
      simp [Nat.pos_iff_ne_zero.mp h1]
    · rw [show (mkNetwork (p :: rest) rw rb).weights =
          idxMap (fun k q =>
            if k = 0 then []
            else (List.range q.1).map (fun i =>
              (List.range ((p :: rest).getD (k - 1) (0, linear)).1).map
                (fun j => rw k i j))) 0 (p :: rest) from rfl,
        getD_idxMap _ [] (0, linear) _ 0 k hk]
      simp [Nat.pos_iff_ne_zero.mp h1]
    · rw [show (mkNetwork (p :: rest) rw rb).biases =
          idxMap (fun k q =>
            if k = 0 then [] else (List.range q.1).map (fun i => rb k i))
            0 (p :: rest) from rfl,
        getD_idxMap _ [] (0, linear) _ 0 k hk]
      simp [Nat.pos_iff_ne_zero.mp h1]

/-- Witness for claim C9 at the two-layer topology of the spec scenario,
with the random source fixed to zero: the global invariants plus the
per-layer shapes instantiated at layer 1. -/
theorem c9_constructor_shapes_witness :
    0 < ([(2, linear), (1, linear)] : List (ℕ × Activation)).length ∧
    ((mkNetwork [(2, linear), (1, linear)] (fun _ _ _ => 0)
        (fun _ _ => 0)).weights.length =
      ([(2, linear), (1, linear)] : List (ℕ × Activation)).length ∧
    (mkNetwork [(2, linear), (1, linear)] (fun _ _ _ => 0)
        (fun _ _ => 0)).biases.length =
      ([(2, linear), (1, linear)] : List (ℕ × Activation)).length ∧
    (mkNetwork [(2, linear), (1, linear)] (fun _ _ _ => 0)
        (fun _ _ => 0)).activations.length =
      ([(2, linear), (1, linear)] : List (ℕ × Activation)).length ∧
    (mkNetwork [(2, linear), (1, linear)] (fun _ _ _ => 0)
        (fun _ _ => 0)).weights.headD [] = [] ∧
    (mkNetwork [(2, linear), (1, linear)] (fun _ _ _ => 0)
        (fun _ _ => 0)).biases.headD [] = []) ∧
    (1 ≤ 1 ∧
    1 < ([(2, linear), (1, linear)] : List (ℕ × Activation)).length ∧
    (((mkNetwork [(2, linear), (1, linear)] (fun _ _ _ => 0)
        (fun _ _ => 0)).weights.getD 1 []).length =
      (([(2, linear), (1, linear)] : List (ℕ × Activation)).getD
        1 (0, linear)).1 ∧
    (∀ row ∈ (mkNetwork [(2, linear), (1, linear)] (fun _ _ _ => 0)
        (fun _ _ => 0)).weights.getD 1 [],
      row.length = (([(2, linear), (1, linear)] :
        List (ℕ × Activation)).getD (1 - 1) (0, linear)).1) ∧
    ((mkNetwork [(2, linear), (1, linear)] (fun _ _ _ => 0)
        (fun _ _ => 0)).biases.getD 1 []).length =
      (([(2, linear), (1, linear)] : List (ℕ × Activation)).getD
        1 (0, linear)).1)) :=
  have h := c9_constructor_shapes [(2, linear), (1, linear)]
    (fun _ _ _ => 0) (fun _ _ => 0) (by decide)
  ⟨by decide,
   ⟨h.1, h.2.1, h.2.2.1, h.2.2.2.1, h.2.2.2.2.1⟩,
   le_rfl, by decide, h.2.2.2.2.2 1 le_rfl (by decide)⟩

end NNet
